import Mathlib

/-!
Shallow embedding of the `ws4sqlite-client-go` library (package
`ws4sqlite_client`): the request-builder state machine, the client
configuration, the credential attachment performed by `SendWithContext`,
and the pure post-network part of `SendWithContext` (HTTP status
classification and response decoding).  Go maps are modelled as
association lists, Go nil-able pointers and slices as `Option` (a Go
`nil` check such as `x != nil` becomes `Option.isSome`), and a
nil-pointer dereference (a Go runtime panic) as `none` in an `Option`
result.
-/

/-- Dynamic JSON-like value: the target of Go's `json.Unmarshal` into an
`interface{}` cell, kept as a closed sum. -/
inductive Jval where
  | null : Jval
  | bool (b : Bool) : Jval
  | num (n : Int) : Jval
  | str (s : String) : Jval
  | arr (xs : List Jval) : Jval
  | obj (kvs : List (String × Jval)) : Jval

/-- Go `map[string]interface{}` as an association list. -/
abbrev ValMap : Type := List (String × Jval)

/-- Go struct `credentials` (request.go): user/password pair inlined in
the request body. -/
structure credentials where
  User : String
  Password : String
deriving DecidableEq

/-- Go struct `requestItemCrypto` (request.go): encoder/decoder spec.  A
missing `compressionLevel` is Go's zero value 0. -/
structure requestItemCrypto where
  Password : String
  Fields : List String
  CompressionLevel : Int
deriving DecidableEq

/-- Go struct `requestItem` (request.go).  Field defaults are Go zero
values, as produced by `&requestItem{}`. -/
structure requestItem where
  Query : String := ""
  Statement : String := ""
  NoFail : Bool := false
  Values : Option ValMap := none
  ValuesBatch : Option (List ValMap) := none
  Encoder : Option requestItemCrypto := none
  Decoder : Option requestItemCrypto := none

/-- Go struct `request` (request.go): optional inline credentials plus
the ordered transaction list. -/
structure request where
  Credentials : Option credentials := none
  Transaction : List requestItem := []

/-- Go struct `RequestBuilder` (request.go): latched error string, the
accumulated `request`, and the currently open item (`temp`, a nil-able
pointer). -/
structure RequestBuilder where
  err : String := ""
  list : request := {}
  temp : Option requestItem := none

/-- Go struct `Request` (request.go): the built, wrapped `request`. -/
structure Request where
  req : request

/-- Go `NewRequestBuilder()`: fresh builder with an empty transaction. -/
def NewRequestBuilder : RequestBuilder :=
  { err := "", list := { Credentials := none, Transaction := [] }, temp := none }

/-- Go `(*RequestBuilder).AddQuery`: if an item is open, finalize and
append it, then open a fresh item whose `Query` is set.  Never
dereferences `temp`, so it cannot panic. -/
def RequestBuilder.AddQuery (rb : RequestBuilder) (query : String) :
    Option RequestBuilder :=
  if rb.err ≠ "" then some rb
  else
    let list :=
      match rb.temp with
      | some t => { rb.list with Transaction := rb.list.Transaction ++ [t] }
      | none => rb.list
    some { rb with list := list, temp := some { Query := query } }

/-- Go `(*RequestBuilder).AddStatement`: as `AddQuery`, but the fresh
item's `Statement` is set. -/
def RequestBuilder.AddStatement (rb : RequestBuilder) (statement : String) :
    Option RequestBuilder :=
  if rb.err ≠ "" then some rb
  else
    let list :=
      match rb.temp with
      | some t => { rb.list with Transaction := rb.list.Transaction ++ [t] }
      | none => rb.list
    some { rb with list := list, temp := some { Statement := statement } }

/-- Go `(*RequestBuilder).WithNoFail`: sets `rb.temp.NoFail = true`.
When `temp` is nil this dereferences a nil pointer (Go panic),
modelled as `none`. -/
def RequestBuilder.WithNoFail (rb : RequestBuilder) : Option RequestBuilder :=
  if rb.err ≠ "" then some rb
  else
    match rb.temp with
    | none => none
    | some t => some { rb with temp := some { t with NoFail := true } }

/-- Go `(*RequestBuilder).WithValues`: nil-argument check, then
query-batch check, then append-to-batch / promote-to-batch / set-single,
in the source's order.  The argument is `Option ValMap` because a Go map
argument may be nil.  With a non-nil argument and a nil `temp` the
source dereferences `rb.temp` (panic, modelled as `none`). -/
def RequestBuilder.WithValues (rb : RequestBuilder) (values : Option ValMap) :
    Option RequestBuilder :=
  if rb.err ≠ "" then some rb
  else
    match values with
    | none => some { rb with err := "cannot specify a nil argument" }
    | some v =>
      match rb.temp with
      | none => none
      | some t =>
        if t.Query ≠ "" ∧ (t.Values.isSome ∨ t.ValuesBatch.isSome) then
          some { rb with err := "cannot specify a batch for a query" }
        else
          match t.ValuesBatch with
          | some vb =>
            some { rb with temp := some { t with ValuesBatch := some (vb ++ [v]) } }
          | none =>
            match t.Values with
            | some v0 =>
              some { rb with
                     temp := some { t with Values := none,
                                           ValuesBatch := some [v0, v] } }
            | none => some { rb with temp := some { t with Values := some v } }

/-- Go `(*RequestBuilder).WithEncoderAndCompression`: level check, then
fields check, then query check (the last dereferences `temp`: panic when
nil), then stores the encoder spec. -/
def RequestBuilder.WithEncoderAndCompression (rb : RequestBuilder)
    (password : String) (compressionLevel : Int) (fields : List String) :
    Option RequestBuilder :=
  if rb.err ≠ "" then some rb
  else if compressionLevel < 1 ∨ compressionLevel > 19 then
    some { rb with err := "compressionLevel must be between 1 and 19" }
  else if fields.length ≤ 0 then
    some { rb with err := "cannot specify an empty fields list" }
  else
    match rb.temp with
    | none => none
    | some t =>
      if t.Query ≠ "" then
        some { rb with err := "cannot specify an encoder for a query" }
      else
        some { rb with
               temp := some { t with
                 Encoder := some { Password := password,
                                   CompressionLevel := compressionLevel,
                                   Fields := fields } } }

/-- Go `(*RequestBuilder).WithEncoder`: fields check, then query check
(dereferences `temp`: panic when nil), then stores the encoder spec with
zero compression level. -/
def RequestBuilder.WithEncoder (rb : RequestBuilder)
    (password : String) (fields : List String) : Option RequestBuilder :=
  if rb.err ≠ "" then some rb
  else if fields.length ≤ 0 then
    some { rb with err := "cannot specify an empty fields list" }
  else
    match rb.temp with
    | none => none
    | some t =>
      if t.Query ≠ "" then
        some { rb with err := "cannot specify an encoder for a query" }
      else
        some { rb with
               temp := some { t with
                 Encoder := some { Password := password,
                                   CompressionLevel := 0,
                                   Fields := fields } } }

/-- Go `(*RequestBuilder).WithDecoder`: fields check, then statement
check (dereferences `temp`: panic when nil), then stores the decoder
spec. -/
def RequestBuilder.WithDecoder (rb : RequestBuilder)
    (password : String) (fields : List String) : Option RequestBuilder :=
  if rb.err ≠ "" then some rb
  else if fields.length ≤ 0 then
    some { rb with err := "cannot specify an empty fields list" }
  else
    match rb.temp with
    | none => none
    | some t =>
      if t.Statement ≠ "" then
        some { rb with err := "cannot specify a decoder for a statement" }
      else
        some { rb with
               temp := some { t with
                 Decoder := some { Password := password,
                                   CompressionLevel := 0,
                                   Fields := fields } } }

/-- Go `(*RequestBuilder).Build`: when `temp` is nil the source first
overwrites `rb.err` with "There are no requests" and returns it; when an
error is latched it is returned; otherwise the open item is finalized
and the `Request` produced. -/
def RequestBuilder.Build (rb : RequestBuilder) : Except String Request :=
  match rb.temp with
  | none => .error "There are no requests"
  | some t =>
    if rb.err ≠ "" then .error rb.err
    else .ok { req := { rb.list with Transaction := rb.list.Transaction ++ [t] } }

/-- One builder call, for quantifying over call sequences. -/
inductive BCall where
  | addQuery (query : String)
  | addStatement (statement : String)
  | withNoFail
  | withValues (values : Option ValMap)
  | withEncoderAndCompression (password : String) (compressionLevel : Int)
      (fields : List String)
  | withEncoder (password : String) (fields : List String)
  | withDecoder (password : String) (fields : List String)

/-- Dispatch one builder call to the corresponding source method. -/
def step (rb : RequestBuilder) : BCall → Option RequestBuilder
  | .addQuery q => rb.AddQuery q
  | .addStatement s => rb.AddStatement s
  | .withNoFail => rb.WithNoFail
  | .withValues v => rb.WithValues v
  | .withEncoderAndCompression p l f => rb.WithEncoderAndCompression p l f
  | .withEncoder p f => rb.WithEncoder p f
  | .withDecoder p f => rb.WithDecoder p f

/-- Run a sequence of builder calls; `none` as soon as one panics. -/
def runCalls (rb : RequestBuilder) : List BCall → Option RequestBuilder
  | [] => some rb
  | c :: cs =>
    match step rb c with
    | none => none
    | some rb2 => runCalls rb2 cs

/-- Go constant `AUTH_MODE_HTTP` (client.go; `AuthMode` is a string
type). -/
def AUTH_MODE_HTTP : String := "HTTP"

/-- Go constant `AUTH_MODE_INLINE` (client.go). -/
def AUTH_MODE_INLINE : String := "INLINE"

/-- Go constant `AUTH_MODE_NONE` (client.go). -/
def AUTH_MODE_NONE : String := "NONE"

/-- Go struct `ClientBuilder` (client.go 0.11.0): url, auth mode and the
per-client credentials. -/
structure ClientBuilder where
  url : String := ""
  authMode : String := ""
  user : String := ""
  password : String := ""
deriving DecidableEq

/-- Go struct `Client` (client.go): embeds `ClientBuilder`. -/
structure Client extends ClientBuilder
deriving DecidableEq

/-- Go `NewClientBuilder()`: defaults to no authentication. -/
def NewClientBuilder : ClientBuilder :=
  { url := "", authMode := AUTH_MODE_NONE, user := "", password := "" }

/-- Go `(*ClientBuilder).WithURL`. -/
def ClientBuilder.WithURL (cb : ClientBuilder) (url : String) : ClientBuilder :=
  { cb with url := url }

/-- Go `(*ClientBuilder).WithInlineAuth`. -/
def ClientBuilder.WithInlineAuth (cb : ClientBuilder) (user password : String) :
    ClientBuilder :=
  { cb with authMode := AUTH_MODE_INLINE, user := user, password := password }

/-- Go `(*ClientBuilder).WithHTTPAuth`. -/
def ClientBuilder.WithHTTPAuth (cb : ClientBuilder) (user password : String) :
    ClientBuilder :=
  { cb with authMode := AUTH_MODE_HTTP, user := user, password := password }

/-- Go `(*ClientBuilder).Build` (client.go): validates url, auth-mode
membership, and credential non-emptiness for authenticated modes. -/
def ClientBuilder.Build (cb : ClientBuilder) : Except String Client :=
  if cb.url = "" then .error "no url specified"
  else if cb.authMode ≠ AUTH_MODE_HTTP ∧ cb.authMode ≠ AUTH_MODE_NONE ∧
      cb.authMode ≠ AUTH_MODE_INLINE then .error "invalid authMode"
  else if cb.authMode ≠ AUTH_MODE_NONE ∧ (cb.user = "" ∨ cb.password = "") then
    .error "no user or password specified"
  else .ok { toClientBuilder := cb }

/-- Go `SendWithContext`, lines 155-160 (client.go 0.11.0): in inline
auth mode the call assigns `req.req.Credentials` through the `*Request`
pointer, so the result is the state of the caller's stored `Request`
after the call; it is also exactly the value whose `req` field is then
marshalled as the outgoing payload. -/
def Client.sendAttachCredentials (c : Client) (req : Request) : Request :=
  if c.authMode = AUTH_MODE_INLINE then
    { req := { req.req with
               Credentials := some { User := c.user, Password := c.password } } }
  else req

/-- Raw wire cell: Go `json.RawMessage` together with the outcome of
`json.Unmarshal` into `interface{}` on it (`none` = malformed bytes). -/
abbrev RawCell : Type := Option Jval

/-- Go struct `responseItem` (response.go): wire-level item.
`RowsUpdated` is `*int64`, `RowsUpdatedBatch` a nil-able slice,
`ResultSet` a nil-able slice of maps of raw cells. -/
structure responseItem where
  Success : Bool
  RowsUpdated : Option Int
  RowsUpdatedBatch : Option (List Int)
  ResultSet : Option (List (List (String × RawCell)))
  Error : String

/-- Go struct `response` (response.go): wire-level envelope. -/
structure response where
  Results : List responseItem

/-- Go struct `ResponseItem` (response.go): caller-facing item with
decoded cells. -/
structure ResponseItem where
  Success : Bool
  RowsUpdated : Option Int
  RowsUpdatedBatch : Option (List Int)
  ResultSet : Option (List (List (String × Jval)))
  Error : String

/-- Go struct `Response` (response.go). -/
structure Response where
  Results : List ResponseItem

/-- Go `SendWithContext`, inner cell loop (lines 215-223): unmarshal
each raw cell of one row; the first malformed cell aborts the whole
decode. -/
def decodeRow : List (String × RawCell) → Except Unit (List (String × Jval))
  | [] => .ok []
  | (k, raw) :: rest =>
    match raw with
    | none => .error ()
    | some v2 =>
      match decodeRow rest with
      | .error e => .error e
      | .ok r => .ok ((k, v2) :: r)

/-- Go `SendWithContext`, row loop (lines 213-225): decode each row of a
result set in order. -/
def decodeResultSet : List (List (String × RawCell)) →
    Except Unit (List (List (String × Jval)))
  | [] => .ok []
  | row :: rest =>
    match decodeRow row with
    | .error e => .error e
    | .ok row2 =>
      match decodeResultSet rest with
      | .error e => .error e
      | .ok rest2 => .ok (row2 :: rest2)

/-- Go `SendWithContext`, per-item body (lines 206-227): copy
success/error/rowsUpdated/rowsUpdatedBatch through unchanged; convert
the result set only when the wire field is non-nil. -/
def decodeItem (w : responseItem) : Except Unit ResponseItem :=
  let base : ResponseItem :=
    { Success := w.Success, RowsUpdated := w.RowsUpdated,
      RowsUpdatedBatch := w.RowsUpdatedBatch, ResultSet := none,
      Error := w.Error }
  match w.ResultSet with
  | none => .ok base
  | some rs =>
    match decodeResultSet rs with
    | .error e => .error e
    | .ok rs2 => .ok { base with ResultSet := some rs2 }

/-- Go `SendWithContext`, results loop (lines 204-229): decode the wire
items in order into the caller-facing `Response`. -/
def decodeResults : List responseItem → Except Unit (List ResponseItem)
  | [] => .ok []
  | w :: rest =>
    match decodeItem w with
    | .error e => .error e
    | .ok r =>
      match decodeResults rest with
      | .error e => .error e
      | .ok rest2 => .ok (r :: rest2)

/-- Decode a whole wire envelope. -/
def decodeResponse (res : response) : Except Unit Response :=
  match decodeResults res.Results with
  | .error e => .error e
  | .ok rs => .ok { Results := rs }

/-- Go struct `WsError`: remote processing error with the index of the
failing request item, the message, and the HTTP code.  The 0.11.0
`SendWithContext` writes the fields `RequestIdx`, `Msg` and `Code`. -/
structure WsError where
  RequestIdx : Int
  Msg : String
  Code : Int
deriving DecidableEq

/-- Error channel of `Send`/`SendWithContext`: a typed `WsError` or a
plain (untyped) Go error. -/
inductive SendErr where
  | ws (e : WsError)
  | plain

/-- Go `SendWithContext`, lines 187-231: the pure classification of the
HTTP outcome once status and body are known.  `parsedErr` is the outcome
of `json.Unmarshal(body, &wserr)` (`none` = body did not parse as the
structured error shape; `some w` = the parsed fields), and `parsedResp`
the outcome of `json.Unmarshal(body, &res)` against the envelope.  The
result mirrors the Go triple `(*Response, int, error)`. -/
def handleBody (status : Int) (body : String) (parsedErr : Option WsError)
    (parsedResp : Option response) : Option Response × Int × Option SendErr :=
  if status ≠ 200 then
    let wserr :=
      match parsedErr with
      | some w => w
      | none => { RequestIdx := -1, Msg := body, Code := 0 }
    (none, status, some (.ws { wserr with Code := status }))
  else
    match parsedResp with
    | none => (none, status, some .plain)
    | some res =>
      match decodeResponse res with
      | .error _ => (none, status, some .plain)
      | .ok r => (some r, status, none)

/-- Number of populated outcome fields of a decoded item: a non-empty
error string, a non-nil rows-updated pointer, a non-nil batch slice, a
non-nil result set. -/
def populatedCount (ri : ResponseItem) : Nat :=
  (if ri.Error ≠ "" then 1 else 0) + (if ri.RowsUpdated.isSome then 1 else 0) +
    (if ri.RowsUpdatedBatch.isSome then 1 else 0) +
    (if ri.ResultSet.isSome then 1 else 0)

/-- Number of populated outcome fields of a wire item. -/
def wirePopulatedCount (w : responseItem) : Nat :=
  (if w.Error ≠ "" then 1 else 0) + (if w.RowsUpdated.isSome then 1 else 0) +
    (if w.RowsUpdatedBatch.isSome then 1 else 0) +
    (if w.ResultSet.isSome then 1 else 0)

/-! ## Helper lemmas -/

/-- Every builder method checks the latched error first and returns the
builder unchanged. -/
theorem step_latched (rb : RequestBuilder) (c : BCall) (h : rb.err ≠ "") :
    step rb c = some rb := by
  cases c <;>
    simp [step, RequestBuilder.AddQuery, RequestBuilder.AddStatement,
      RequestBuilder.WithNoFail, RequestBuilder.WithValues,
      RequestBuilder.WithEncoderAndCompression, RequestBuilder.WithEncoder,
      RequestBuilder.WithDecoder, h]

/-- A latched builder is a fixed point of any call sequence. -/
theorem runCalls_latched (rb : RequestBuilder) (cs : List BCall)
    (h : rb.err ≠ "") : runCalls rb cs = some rb := by
  induction cs with
  | nil => rfl
  | cons c cs ih => simp only [runCalls, step_latched rb c h]; exact ih


/-- Totality of one step: from a state with a latched error or an open
item, no builder call panics. -/
theorem step_isSome (rb : RequestBuilder) (c : BCall)
    (h : rb.err ≠ "" ∨ rb.temp.isSome = true) : (step rb c).isSome = true := by
  by_cases herr : rb.err = ""
  · have ht : rb.temp.isSome = true := by
      rcases h with h | h
      · exact absurd herr h
      · exact h
    cases c with
    | addQuery q =>
      simp only [step, RequestBuilder.AddQuery]
      split <;> rfl
    | addStatement s =>
      simp only [step, RequestBuilder.AddStatement]
      split <;> rfl
    | withNoFail =>
      simp only [step, RequestBuilder.WithNoFail]
      split
      · rfl
      · split
        · next heq => rw [heq] at ht; exact absurd ht (by simp)
        · rfl
    | withValues v =>
      simp only [step, RequestBuilder.WithValues]
      split
      · rfl
      · split
        · rfl
        · split
          · next heq => rw [heq] at ht; exact absurd ht (by simp)
          · split
            · rfl
            · split
              · rfl
              · split <;> rfl
    | withEncoderAndCompression p l f =>
      simp only [step, RequestBuilder.WithEncoderAndCompression]
      split
      · rfl
      · split
        · rfl
        · split
          · rfl
          · split
            · next heq => rw [heq] at ht; exact absurd ht (by simp)
            · split <;> rfl
    | withEncoder p f =>
      simp only [step, RequestBuilder.WithEncoder]
      split
      · rfl
      · split
        · rfl
        · split
          · next heq => rw [heq] at ht; exact absurd ht (by simp)
          · split <;> rfl
    | withDecoder p f =>
      simp only [step, RequestBuilder.WithDecoder]
      split
      · rfl
      · split
        · rfl
        · split
          · next heq => rw [heq] at ht; exact absurd ht (by simp)
          · split <;> rfl
  · rw [step_latched rb c herr]; rfl

/-- Preservation of the safety invariant across one step. -/
theorem step_preserves (rb rb2 : RequestBuilder) (c : BCall)
    (hstep : step rb c = some rb2)
    (h : rb.err ≠ "" ∨ rb.temp.isSome = true) :
    rb2.err ≠ "" ∨ rb2.temp.isSome = true := by
  by_cases herr : rb.err = ""
  · cases c with
    | addQuery q =>
      simp only [step, RequestBuilder.AddQuery, herr] at hstep
      simp only [ne_eq, not_true_eq_false, if_false, reduceIte] at hstep
      rw [← Option.some_inj.mp hstep]
      exact Or.inr rfl
    | addStatement s =>
      simp only [step, RequestBuilder.AddStatement, herr] at hstep
      simp only [ne_eq, not_true_eq_false, if_false, reduceIte] at hstep
      rw [← Option.some_inj.mp hstep]
      exact Or.inr rfl
    | withNoFail =>
      simp only [step, RequestBuilder.WithNoFail, herr] at hstep
      simp only [ne_eq, not_true_eq_false, if_false, reduceIte] at hstep
      split at hstep
      · exact absurd hstep (by simp)
      · rw [← Option.some_inj.mp hstep]
        exact Or.inr rfl
    | withValues v =>
      simp only [step, RequestBuilder.WithValues, herr] at hstep
      simp only [ne_eq, not_true_eq_false, if_false, reduceIte] at hstep
      split at hstep
      · rw [← Option.some_inj.mp hstep]
        exact Or.inl (by simp)
      · split at hstep
        · exact absurd hstep (by simp)
        · split at hstep
          · rw [← Option.some_inj.mp hstep]
            exact Or.inl (by simp)
          · split at hstep
            · rw [← Option.some_inj.mp hstep]
              exact Or.inr rfl
            · split at hstep
              · rw [← Option.some_inj.mp hstep]
                exact Or.inr rfl
              · rw [← Option.some_inj.mp hstep]
                exact Or.inr rfl
    | withEncoderAndCompression p l f =>
      simp only [step, RequestBuilder.WithEncoderAndCompression, herr] at hstep
      simp only [ne_eq, not_true_eq_false, if_false, reduceIte] at hstep
      split at hstep
      · rw [← Option.some_inj.mp hstep]
        exact Or.inl (by simp)
      · split at hstep
        · rw [← Option.some_inj.mp hstep]
          exact Or.inl (by simp)
        · split at hstep
          · exact absurd hstep (by simp)
          · split at hstep
            · rw [← Option.some_inj.mp hstep]
              exact Or.inl (by simp)
            · rw [← Option.some_inj.mp hstep]
              exact Or.inr rfl
    | withEncoder p f =>
      simp only [step, RequestBuilder.WithEncoder, herr] at hstep
      simp only [ne_eq, not_true_eq_false, if_false, reduceIte] at hstep
      split at hstep
      · rw [← Option.some_inj.mp hstep]
        exact Or.inl (by simp)
      · split at hstep
        · exact absurd hstep (by simp)
        · split at hstep
          · rw [← Option.some_inj.mp hstep]
            exact Or.inl (by simp)
          · rw [← Option.some_inj.mp hstep]
            exact Or.inr rfl
    | withDecoder p f =>
      simp only [step, RequestBuilder.WithDecoder, herr] at hstep
      simp only [ne_eq, not_true_eq_false, if_false, reduceIte] at hstep
      split at hstep
      · rw [← Option.some_inj.mp hstep]
        exact Or.inl (by simp)
      · split at hstep
        · exact absurd hstep (by simp)
        · split at hstep
          · rw [← Option.some_inj.mp hstep]
            exact Or.inl (by simp)
          · rw [← Option.some_inj.mp hstep]
            exact Or.inr rfl
  · rw [step_latched rb c herr] at hstep
    rw [← Option.some_inj.mp hstep]
    exact Or.inl herr

/-- Multi-step safety: from a latched or open state, no sequence of
builder calls panics. -/
theorem runCalls_safe (cs : List BCall) :
    ∀ rb : RequestBuilder, (rb.err ≠ "" ∨ rb.temp.isSome = true) →
    (runCalls rb cs).isSome = true := by
  induction cs with
  | nil => intro rb _; rfl
  | cons c cs ih =>
    intro rb h
    have h1 := step_isSome rb c h
    obtain ⟨rb2, hstep⟩ := Option.isSome_iff_exists.mp h1
    simp only [runCalls, hstep]
    exact ih rb2 (step_preserves rb rb2 c hstep h)

/-! ## Concrete fixtures used by witnesses and counterexamples -/

/-- A builder with a latched error and an open query item. -/
def latchedRb : RequestBuilder :=
  { err := "first error", list := { Credentials := none, Transaction := [] },
    temp := some { Query := "q1" } }

/-- The builder state after `NewRequestBuilder().WithValues(nil)`: the
nil-argument error is latched while no item was ever opened. -/
def nilValuesLatchedRb : RequestBuilder :=
  { err := "cannot specify a nil argument",
    list := { Credentials := none, Transaction := [] }, temp := none }

/-- A builder with no latched error and an open query item. -/
def qRb : RequestBuilder :=
  { err := "", list := { Credentials := none, Transaction := [] },
    temp := some { Query := "SELECT X" } }

/-! ## C2 -/

/-- C2, counterexample: `NewRequestBuilder().WithNoFail()` dereferences
the nil `temp` pointer — a Go runtime panic raised at the point of the
offending call, not an error value returned from `build()`. -/
theorem withNoFail_before_add_panics :
    runCalls NewRequestBuilder [BCall.withNoFail] = none := rfl

/-- C2 (amended): for every sequence of builder calls whose first call
is `addQuery` or `addStatement`, no call panics; the with-style calls
panic only when invoked while no item has ever been opened. -/
theorem builder_no_panic_after_open :
    (∀ (q : String) (cs : List BCall),
      (runCalls NewRequestBuilder (BCall.addQuery q :: cs)).isSome = true) ∧
    (∀ (s : String) (cs : List BCall),
      (runCalls NewRequestBuilder (BCall.addStatement s :: cs)).isSome = true) := by
  constructor
  · intro q cs
    have hstep : step NewRequestBuilder (BCall.addQuery q) =
        some { err := "", list := { Credentials := none, Transaction := [] },
               temp := some { Query := q } } := rfl
    simp only [runCalls, hstep]
    exact runCalls_safe cs _ (Or.inr rfl)
  · intro s cs
    have hstep : step NewRequestBuilder (BCall.addStatement s) =
        some { err := "", list := { Credentials := none, Transaction := [] },
               temp := some { Statement := s } } := rfl
    simp only [runCalls, hstep]
    exact runCalls_safe cs _ (Or.inr rfl)

/-! ## C4 -/

/-- C4, counterexample: latching an error before any item is opened is
not surfaced by `Build`: `Build` overwrites it with the "There are no
requests" error, so `build()` does not always return the first latched
error. -/
theorem build_overwrites_latched_error :
    runCalls NewRequestBuilder [BCall.withValues none] = some nilValuesLatchedRb ∧
    nilValuesLatchedRb.err = "cannot specify a nil argument" ∧
    RequestBuilder.Build nilValuesLatchedRb = Except.error "There are no requests" ∧
    ("There are no requests" : String) ≠ "cannot specify a nil argument" :=
  ⟨rfl, rfl, rfl, by decide⟩

/-- C4 (amended): once an error is latched every subsequent builder call
is a no-op returning the builder unchanged; `Build` surfaces the latched
error whenever an item is open, but when no item was ever opened it
returns the "There are no requests" error even if another error was
latched first. -/
theorem builder_latch_semantics :
    (∀ (rb : RequestBuilder) (c : BCall), rb.err ≠ "" → step rb c = some rb) ∧
    (∀ (rb : RequestBuilder) (cs : List BCall), rb.err ≠ "" →
      runCalls rb cs = some rb) ∧
    (∀ (rb : RequestBuilder) (t : requestItem), rb.err ≠ "" →
      rb.temp = some t → rb.Build = .error rb.err) ∧
    (∀ rb : RequestBuilder, rb.temp = none →
      rb.Build = .error "There are no requests") := by
  refine ⟨step_latched, runCalls_latched, ?_, ?_⟩
  · intro rb t h ht
    simp [RequestBuilder.Build, ht, h]
  · intro rb ht
    simp [RequestBuilder.Build, ht]

/-- C4, witness: the amended statement instantiated on concrete
builders. -/
theorem builder_latch_semantics_witness :
    step latchedRb BCall.withNoFail = some latchedRb ∧
    runCalls latchedRb [BCall.addQuery "x"] = some latchedRb ∧
    RequestBuilder.Build latchedRb = Except.error latchedRb.err ∧
    RequestBuilder.Build NewRequestBuilder = Except.error "There are no requests" :=
  ⟨builder_latch_semantics.1 latchedRb BCall.withNoFail (by decide),
   builder_latch_semantics.2.1 latchedRb [BCall.addQuery "x"] (by decide),
   builder_latch_semantics.2.2.1 latchedRb { Query := "q1" } (by decide) rfl,
   builder_latch_semantics.2.2.2 NewRequestBuilder rfl⟩

/-! ## C10 -/

/-- C10: on a builder with no latched error whose open item is a query,
`WithNoFail` succeeds without latching, sets the item's `NoFail` flag,
and the flag survives into the built Request's last transaction item:
the builder never restricts `noFail` to statements. -/
theorem withNoFail_on_query (rb : RequestBuilder) (t : requestItem)
    (h1 : rb.err = "") (h2 : rb.temp = some t) (h3 : t.Query ≠ "") :
    rb.WithNoFail = some { rb with temp := some { t with NoFail := true } } ∧
    RequestBuilder.Build { rb with temp := some { t with NoFail := true } } =
      .ok { req := { rb.list with
        Transaction := rb.list.Transaction ++ [{ t with NoFail := true }] } } := by
  constructor
  · simp [RequestBuilder.WithNoFail, h1, h2]
  · simp [RequestBuilder.Build, h1]

/-- C10, witness: `WithNoFail` on a concrete open query item. -/
theorem withNoFail_on_query_witness :
    RequestBuilder.WithNoFail qRb =
      some { qRb with
             temp := some { ({ Query := "SELECT X" } : requestItem) with
                            NoFail := true } } ∧
    RequestBuilder.Build
        { qRb with
          temp := some { ({ Query := "SELECT X" } : requestItem) with
                         NoFail := true } } =
      .ok { req := { qRb.list with
        Transaction := qRb.list.Transaction ++
          [{ ({ Query := "SELECT X" } : requestItem) with NoFail := true }] } } :=
  withNoFail_on_query qRb { Query := "SELECT X" } rfl rfl (by decide)

/-! ## C7 -/

/-- Apply a list of non-nil `WithValues` calls. -/
def applyValues (rb : RequestBuilder) (ms : List ValMap) : Option RequestBuilder :=
  runCalls rb (ms.map fun m => BCall.withValues (some m))

/-- A successful (non-latching) `WithValues` on an item that is not a
query only rewrites the open item, and never turns it into a query. -/
theorem withValues_statement_step (rb : RequestBuilder) (t : requestItem)
    (m : ValMap) (h1 : rb.err = "") (h2 : rb.temp = some t)
    (h3 : t.Query = "") :
    ∃ t2, rb.WithValues (some m) = some { rb with temp := some t2 } ∧
      t2.Query = "" := by
  cases hb : t.ValuesBatch with
  | some vb =>
    refine ⟨{ t with ValuesBatch := some (vb ++ [m]) }, ?_, h3⟩
    simp [RequestBuilder.WithValues, h1, h2, h3, hb]
  | none =>
    cases hv : t.Values with
    | some v0 =>
      refine ⟨{ t with Values := none, ValuesBatch := some [v0, m] }, ?_, h3⟩
      simp [RequestBuilder.WithValues, h1, h2, h3, hb, hv]
    | none =>
      refine ⟨{ t with Values := some m }, ?_, h3⟩
      simp [RequestBuilder.WithValues, h1, h2, h3, hb, hv]

/-- Statement items accept arbitrarily many `WithValues` calls, never
latching. -/
theorem applyValues_statement_ok (ms : List ValMap) :
    ∀ (rb : RequestBuilder) (t : requestItem), rb.err = "" →
    rb.temp = some t → t.Query = "" →
    ∃ rb2, applyValues rb ms = some rb2 ∧ rb2.err = "" := by
  induction ms with
  | nil => exact fun rb t h1 _ _ => ⟨rb, rfl, h1⟩
  | cons m ms ih =>
    intro rb t h1 h2 h3
    obtain ⟨t2, hs, hq2⟩ := withValues_statement_step rb t m h1 h2 h3
    have hstep : step rb (BCall.withValues (some m)) =
        some { rb with temp := some t2 } := hs
    simp only [applyValues, List.map, runCalls, hstep]
    exact ih { rb with temp := some t2 } t2 h1 rfl hq2

/-- C7: with no latched error and an open item, `WithValues` latches a
validation error exactly when the supplied mapping is nil, or the open
item is a query (non-empty `Query` text) that already carries a `values`
or `valuesBatch` binding; and on an item that is not a query any number
of non-nil `WithValues` calls succeeds. -/
theorem withValues_latch_iff :
    (∀ (rb rb2 : RequestBuilder) (t : requestItem) (v : Option ValMap),
      rb.err = "" → rb.temp = some t → rb.WithValues v = some rb2 →
      (rb2.err ≠ "" ↔
        (v = none ∨ (t.Query ≠ "" ∧
          (t.Values.isSome = true ∨ t.ValuesBatch.isSome = true))))) ∧
    (∀ (rb : RequestBuilder) (t : requestItem) (ms : List ValMap),
      rb.err = "" → rb.temp = some t → t.Query = "" →
      ∃ rb2, applyValues rb ms = some rb2 ∧ rb2.err = "") := by
  constructor
  · intro rb rb2 t v h1 h2 h3
    cases v with
    | none =>
      have he : rb.WithValues none =
          some { rb with err := "cannot specify a nil argument" } := by
        simp [RequestBuilder.WithValues, h1]
      rw [he] at h3
      rw [← Option.some_inj.mp h3]
      exact iff_of_true (by simp) (Or.inl rfl)
    | some m =>
      by_cases hq : t.Query ≠ "" ∧
          (t.Values.isSome = true ∨ t.ValuesBatch.isSome = true)
      · have he : rb.WithValues (some m) =
            some { rb with err := "cannot specify a batch for a query" } := by
          simp [RequestBuilder.WithValues, h1, h2, hq]
        rw [he] at h3
        rw [← Option.some_inj.mp h3]
        exact iff_of_true (by simp) (Or.inr hq)
      · have hok : ∃ t2, rb.WithValues (some m) =
            some { rb with temp := some t2 } := by
          cases hb : t.ValuesBatch with
          | some vb =>
            have hq2 : t.Query = "" := by
              by_contra hne
              exact hq ⟨hne, Or.inr (by simp [hb])⟩
            exact ⟨{ t with ValuesBatch := some (vb ++ [m]) },
              by simp [RequestBuilder.WithValues, h1, h2, hq2, hb]⟩
          | none =>
            cases hv : t.Values with
            | some v0 =>
              have hq2 : t.Query = "" := by
                by_contra hne
                exact hq ⟨hne, Or.inl (by simp [hv])⟩
              exact ⟨{ t with Values := none, ValuesBatch := some [v0, m] },
                by simp [RequestBuilder.WithValues, h1, h2, hq2, hb, hv]⟩
            | none =>
              exact ⟨{ t with Values := some m },
                by simp [RequestBuilder.WithValues, h1, h2, hq, hb, hv]⟩
        obtain ⟨t2, he⟩ := hok
        rw [he] at h3
        rw [← Option.some_inj.mp h3]
        refine iff_of_false (by simp [h1]) ?_
        rintro (hc | hc)
        · exact absurd hc (Option.some_ne_none m)
        · exact hq hc
  · exact fun rb t ms h1 h2 h3 => applyValues_statement_ok ms rb t h1 h2 h3

/-- Example parameter binding. -/
def vm1 : ValMap := [("id", Jval.num 1)]

/-- Example parameter binding. -/
def vm2 : ValMap := [("id", Jval.num 2)]

/-- Example parameter binding. -/
def vm3 : ValMap := [("id", Jval.num 3)]

/-- A builder with no latched error and an open statement item. -/
def sRb : RequestBuilder :=
  { err := "", list := { Credentials := none, Transaction := [] },
    temp := some { Statement := "INSERT 1" } }

/-- `sRb` after one successful `WithValues(vm1)`. -/
def sRbV : RequestBuilder :=
  { err := "", list := { Credentials := none, Transaction := [] },
    temp := some { Statement := "INSERT 1", Values := some vm1 } }

/-- C7, witness: a single non-nil `WithValues` on a fresh statement item
does not latch. -/
theorem withValues_latch_iff_witness :
    sRbV.err ≠ "" ↔
      ((some vm1 : Option ValMap) = none ∨
        (({ Statement := "INSERT 1" } : requestItem).Query ≠ "" ∧
          (({ Statement := "INSERT 1" } : requestItem).Values.isSome = true ∨
            ({ Statement := "INSERT 1" } : requestItem).ValuesBatch.isSome = true))) :=
  withValues_latch_iff.1 sRb sRbV { Statement := "INSERT 1" } (some vm1) rfl rfl
    rfl

/-! ## C9 -/

/-- C9: with no latched error and an open item,
`WithEncoderAndCompression` latches a validation error exactly when the
compression level is outside `[1, 19]`, or the fields list is empty, or
the open item is a query. -/
theorem withEncoderAndCompression_latch_iff (rb rb2 : RequestBuilder)
    (t : requestItem) (p : String) (l : Int) (f : List String)
    (h1 : rb.err = "") (h2 : rb.temp = some t)
    (h3 : rb.WithEncoderAndCompression p l f = some rb2) :
    rb2.err ≠ "" ↔ (l < 1 ∨ l > 19 ∨ f = [] ∨ t.Query ≠ "") := by
  by_cases hl : l < 1 ∨ l > 19
  · have he : rb.WithEncoderAndCompression p l f =
        some { rb with err := "compressionLevel must be between 1 and 19" } := by
      simp [RequestBuilder.WithEncoderAndCompression, h1, hl]
    rw [he] at h3
    rw [← Option.some_inj.mp h3]
    refine iff_of_true (by simp) ?_
    rcases hl with hl | hl
    · exact Or.inl hl
    · exact Or.inr (Or.inl hl)
  · by_cases hf : f.length ≤ 0
    · have he : rb.WithEncoderAndCompression p l f =
          some { rb with err := "cannot specify an empty fields list" } := by
        simp [RequestBuilder.WithEncoderAndCompression, h1, hl, hf]
      rw [he] at h3
      rw [← Option.some_inj.mp h3]
      refine iff_of_true (by simp) ?_
      have hfe : f = [] := by
        cases f with
        | nil => rfl
        | cons a as => simp at hf
      exact Or.inr (Or.inr (Or.inl hfe))
    · by_cases hqq : t.Query ≠ ""
      · have he : rb.WithEncoderAndCompression p l f =
            some { rb with err := "cannot specify an encoder for a query" } := by
          simp [RequestBuilder.WithEncoderAndCompression, h1, h2, hl, hf, hqq]
        rw [he] at h3
        rw [← Option.some_inj.mp h3]
        exact iff_of_true (by simp) (Or.inr (Or.inr (Or.inr hqq)))
      · have he : rb.WithEncoderAndCompression p l f =
            some { rb with
                   temp := some { t with
                     Encoder := some { Password := p, Fields := f,
                                       CompressionLevel := l } } } := by
          simp [RequestBuilder.WithEncoderAndCompression, h1, h2, hl, hf, hqq]
        rw [he] at h3
        rw [← Option.some_inj.mp h3]
        refine iff_of_false (by simp [h1]) ?_
        rintro (hc | hc | hc | hc)
        · exact hl (Or.inl hc)
        · exact hl (Or.inr hc)
        · rw [hc] at hf
          simp at hf
        · exact hqq hc

/-- `sRb` after a successful `WithEncoderAndCompression("pw", 1, "A")`. -/
def sRbEnc : RequestBuilder :=
  { err := "", list := { Credentials := none, Transaction := [] },
    temp := some { Statement := "INSERT 1",
                   Encoder := some { Password := "pw", Fields := ["A"],
                                     CompressionLevel := 1 } } }

/-- C9, witness: level 1 with a non-empty fields list on a statement
item does not latch. -/
theorem withEncoderAndCompression_latch_iff_witness :
    sRbEnc.err ≠ "" ↔
      ((1 : Int) < 1 ∨ (1 : Int) > 19 ∨ (["A"] : List String) = [] ∨
        ({ Statement := "INSERT 1" } : requestItem).Query ≠ "") :=
  withEncoderAndCompression_latch_iff sRb sRbEnc { Statement := "INSERT 1" }
    "pw" 1 ["A"] rfl rfl rfl

/-! ## C6 -/

/-- Once an item is in batch mode, each further successful `WithValues`
appends at the end of the batch and leaves `Values` alone. -/
theorem applyValues_batch_append (ms : List ValMap) :
    ∀ (rb r2 : RequestBuilder) (t : requestItem) (bs : List ValMap),
    rb.err = "" → rb.temp = some t → t.Values = none →
    t.ValuesBatch = some bs →
    applyValues rb ms = some r2 → r2.err = "" →
    r2.temp = some { t with ValuesBatch := some (bs ++ ms) } := by
  induction ms with
  | nil =>
    intro rb r2 t bs h1 h2 hv hb hrun herr2
    have hr : rb = r2 :=
      Option.some_inj.mp (by simpa [applyValues, runCalls] using hrun)
    subst hr
    rw [h2]
    cases t
    simp_all
  | cons m ms ih =>
    intro rb r2 t bs h1 h2 hv hb hrun herr2
    by_cases hq : t.Query = ""
    · have he : rb.WithValues (some m) =
          some { rb with
                 temp := some { t with ValuesBatch := some (bs ++ [m]) } } := by
        simp [RequestBuilder.WithValues, h1, h2, hq, hb]
      have hrun2 : applyValues
          { rb with temp := some { t with ValuesBatch := some (bs ++ [m]) } }
          ms = some r2 := by
        simpa [applyValues, List.map, runCalls, step, he] using hrun
      have hfin := ih
        { rb with temp := some { t with ValuesBatch := some (bs ++ [m]) } }
        r2 { t with ValuesBatch := some (bs ++ [m]) } (bs ++ [m])
        h1 rfl hv rfl hrun2 herr2
      simpa [List.append_assoc] using hfin
    · have he : rb.WithValues (some m) =
          some { rb with err := "cannot specify a batch for a query" } := by
        simp [RequestBuilder.WithValues, h1, h2, hq, hb]
      have hrun2 : applyValues
          { rb with err := "cannot specify a batch for a query" } ms =
          some r2 := by
        simpa [applyValues, List.map, runCalls, step, he] using hrun
      have hlatch := runCalls_latched
        { rb with err := "cannot specify a batch for a query" }
        (ms.map fun m => BCall.withValues (some m)) (by simp)
      rw [applyValues, hlatch] at hrun2
      rw [← Option.some_inj.mp hrun2] at herr2
      simp at herr2

/-- C6: on an open item with no prior bindings, a single successful
`WithValues` fills the single `values` slot; two or more successful
calls leave `values` unset and produce a `valuesBatch` holding exactly
the supplied mappings in call order. -/
theorem withValues_batch_promotion (rb r2 : RequestBuilder) (t : requestItem)
    (ms : List ValMap) (h1 : rb.err = "") (h2 : rb.temp = some t)
    (hv : t.Values = none) (hb : t.ValuesBatch = none)
    (hrun : applyValues rb ms = some r2) (herr2 : r2.err = "") :
    (∀ m, ms = [m] → r2.temp = some { t with Values := some m }) ∧
    (2 ≤ ms.length →
      r2.temp = some { t with Values := none, ValuesBatch := some ms }) := by
  cases ms with
  | nil =>
    constructor
    · intro m hm
      simp at hm
    · intro hlen
      simp at hlen
  | cons m1 rest =>
    have he1 : rb.WithValues (some m1) =
        some { rb with temp := some { t with Values := some m1 } } := by
      simp [RequestBuilder.WithValues, h1, h2, hv, hb]
    have hrun1 : applyValues { rb with temp := some { t with Values := some m1 } }
        rest = some r2 := by
      simpa [applyValues, List.map, runCalls, step, he1] using hrun
    cases rest with
    | nil =>
      have hr : _ = r2 :=
        Option.some_inj.mp (by simpa [applyValues, runCalls] using hrun1)
      constructor
      · intro m hm
        have hm1 : m1 = m := by simpa using hm
        subst hm1
        rw [← hr]
      · intro hlen
        simp at hlen
    | cons m2 rest2 =>
      by_cases hq : t.Query = ""
      · have he2 : RequestBuilder.WithValues
            { rb with temp := some { t with Values := some m1 } } (some m2) =
            some { rb with temp := some { t with Values := none, ValuesBatch := some [m1, m2] } } := by
          simp [RequestBuilder.WithValues, h1, hq, hb]
        have hrun2 : applyValues
            { rb with temp := some { t with Values := none, ValuesBatch := some [m1, m2] } }
            rest2 = some r2 := by
          simpa [applyValues, List.map, runCalls, step, he2] using hrun1
        have hfin := applyValues_batch_append rest2
          { rb with temp := some { t with Values := none, ValuesBatch := some [m1, m2] } }
          r2 { t with Values := none, ValuesBatch := some [m1, m2] } [m1, m2]
          h1 rfl rfl rfl hrun2 herr2
        constructor
        · intro m hm
          simp at hm
        · intro _
          simpa using hfin
      · have he2 : RequestBuilder.WithValues
            { rb with temp := some { t with Values := some m1 } } (some m2) =
            some { rb with temp := some { t with Values := some m1 }, err := "cannot specify a batch for a query" } := by
          simp [RequestBuilder.WithValues, h1, hq]
        have hrun2 : applyValues
            { rb with temp := some { t with Values := some m1 }, err := "cannot specify a batch for a query" }
            rest2 = some r2 := by
          simpa [applyValues, List.map, runCalls, step, he2] using hrun1
        have hlatch := runCalls_latched
          { rb with temp := some { t with Values := some m1 }, err := "cannot specify a batch for a query" }
          (rest2.map fun m => BCall.withValues (some m)) (by simp)
        rw [applyValues, hlatch] at hrun2
        rw [← Option.some_inj.mp hrun2] at herr2
        simp at herr2

/-- `sRb` after three successful `WithValues` calls: a 3-element batch. -/
def sRbBatch : RequestBuilder :=
  { err := "", list := { Credentials := none, Transaction := [] },
    temp := some { Statement := "INSERT 1", Values := none, ValuesBatch := some [vm1, vm2, vm3] } }

/-- C6, witness: three `WithValues` calls on a fresh statement item
yield the 3-element batch in call order with `values` unset. -/
theorem withValues_batch_promotion_witness :
    sRbBatch.temp =
      some { ({ Statement := "INSERT 1" } : requestItem) with
             Values := none, ValuesBatch := some [vm1, vm2, vm3] } :=
  (withValues_batch_promotion sRb sRbBatch { Statement := "INSERT 1" }
    [vm1, vm2, vm3] rfl rfl rfl rfl rfl rfl).2 (by decide)

/-! ## C8 -/

/-- Whether a builder call opens a new item. -/
def isAdd : BCall → Bool
  | .addQuery _ => true
  | .addStatement _ => true
  | _ => false

/-- The subsequence of item-opening calls. -/
def addCalls (cs : List BCall) : List BCall := cs.filter isAdd

/-- An item carries the SQL text of the add call that opened it. -/
def matchesAdd : BCall → requestItem → Prop
  | .addQuery q, t => t.Query = q
  | .addStatement s, t => t.Statement = s
  | _, _ => True

/-- Temp-slot correspondence: no open item matches no pending add call,
one open item matches exactly one pending add call. -/
def matchTemp : List BCall → Option requestItem → Prop
  | [], none => True
  | [c], some t => matchesAdd c t
  | _, _ => False

/-- `matchTemp` gives the list-level correspondence on `Option.toList`. -/
theorem matchTemp_forall₂ (sTemp : List BCall) (o : Option requestItem)
    (h : matchTemp sTemp o) : List.Forall₂ matchesAdd sTemp o.toList := by
  cases o with
  | none =>
    cases sTemp with
    | nil => exact List.Forall₂.nil
    | cons a l => simp [matchTemp] at h
  | some t =>
    cases sTemp with
    | nil => simp [matchTemp] at h
    | cons a l =>
      cases l with
      | nil => exact List.Forall₂.cons (by simpa [matchTemp] using h) List.Forall₂.nil
      | cons b l2 => simp [matchTemp] at h

/-- A successful (non-latching) non-add call keeps the transaction list
and rewrites the open item without touching its SQL texts. -/
theorem with_step_shape (rb rb1 : RequestBuilder) (c : BCall)
    (hAdd : isAdd c = false) (herr : rb.err = "") (herr1 : rb1.err = "")
    (hstep : step rb c = some rb1) :
    rb1.list = rb.list ∧ ∃ t t2, rb.temp = some t ∧ rb1.temp = some t2 ∧
      t2.Query = t.Query ∧ t2.Statement = t.Statement := by
  cases c with
  | addQuery q => simp [isAdd] at hAdd
  | addStatement s => simp [isAdd] at hAdd
  | withNoFail =>
    simp only [step, RequestBuilder.WithNoFail, herr, ne_eq,
      not_true_eq_false, if_false, reduceIte] at hstep
    split at hstep
    · exact absurd hstep (by simp)
    · next t heq =>
      rw [← Option.some_inj.mp hstep]
      exact ⟨rfl, t, { t with NoFail := true }, heq, rfl, rfl, rfl⟩
  | withValues v =>
    simp only [step, RequestBuilder.WithValues, herr, ne_eq,
      not_true_eq_false, if_false, reduceIte] at hstep
    split at hstep
    · rw [← Option.some_inj.mp hstep] at herr1
      simp at herr1
    · split at hstep
      · exact absurd hstep (by simp)
      · next t heq =>
        split at hstep
        · rw [← Option.some_inj.mp hstep] at herr1
          simp at herr1
        · split at hstep
          · next vb hvb =>
            rw [← Option.some_inj.mp hstep]
            exact ⟨rfl, t, _, heq, rfl, rfl, rfl⟩
          · split at hstep
            · next v0 hv0 =>
              rw [← Option.some_inj.mp hstep]
              exact ⟨rfl, t, _, heq, rfl, rfl, rfl⟩
            · rw [← Option.some_inj.mp hstep]
              exact ⟨rfl, t, _, heq, rfl, rfl, rfl⟩
  | withEncoderAndCompression p l f =>
    simp only [step, RequestBuilder.WithEncoderAndCompression, herr, ne_eq,
      not_true_eq_false, if_false, reduceIte] at hstep
    split at hstep
    · rw [← Option.some_inj.mp hstep] at herr1
      simp at herr1
    · split at hstep
      · rw [← Option.some_inj.mp hstep] at herr1
        simp at herr1
      · split at hstep
        · exact absurd hstep (by simp)
        · next t heq =>
          split at hstep
          · rw [← Option.some_inj.mp hstep] at herr1
            simp at herr1
          · rw [← Option.some_inj.mp hstep]
            exact ⟨rfl, t, _, heq, rfl, rfl, rfl⟩
  | withEncoder p f =>
    simp only [step, RequestBuilder.WithEncoder, herr, ne_eq,
      not_true_eq_false, if_false, reduceIte] at hstep
    split at hstep
    · rw [← Option.some_inj.mp hstep] at herr1
      simp at herr1
    · split at hstep
      · exact absurd hstep (by simp)
      · next t heq =>
        split at hstep
        · rw [← Option.some_inj.mp hstep] at herr1
          simp at herr1
        · rw [← Option.some_inj.mp hstep]
          exact ⟨rfl, t, _, heq, rfl, rfl, rfl⟩
  | withDecoder p f =>
    simp only [step, RequestBuilder.WithDecoder, herr, ne_eq,
      not_true_eq_false, if_false, reduceIte] at hstep
    split at hstep
    · rw [← Option.some_inj.mp hstep] at herr1
      simp at herr1
    · split at hstep
      · exact absurd hstep (by simp)
      · next t heq =>
        split at hstep
        · rw [← Option.some_inj.mp hstep] at herr1
          simp at herr1
        · rw [← Option.some_inj.mp hstep]
          exact ⟨rfl, t, _, heq, rfl, rfl, rfl⟩

/-- `matchesAdd` only constrains the SQL texts, so it transfers along a
text-preserving item rewrite. -/
theorem matchesAdd_congr (c : BCall) (t t2 : requestItem)
    (hQ : t2.Query = t.Query) (hS : t2.Statement = t.Statement)
    (h : matchesAdd c t) : matchesAdd c t2 := by
  cases c with
  | addQuery q => simpa [matchesAdd, hQ] using h
  | addStatement s => simpa [matchesAdd, hS] using h
  | withNoFail => trivial
  | withValues v => trivial
  | withEncoderAndCompression p l f => trivial
  | withEncoder p f => trivial
  | withDecoder p f => trivial

/-- Inversion for `matchTemp` on an open item. -/
theorem matchTemp_some (sTemp : List BCall) (t : requestItem)
    (h : matchTemp sTemp (some t)) :
    ∃ c0, sTemp = [c0] ∧ matchesAdd c0 t := by
  cases sTemp with
  | nil => simp [matchTemp] at h
  | cons a l =>
    cases l with
    | nil => exact ⟨a, rfl, by simpa [matchTemp] using h⟩
    | cons b l2 => simp [matchTemp] at h

/-- Invariant of a successful, non-latched run: the finalized items plus
the open item correspond, in order, to the add calls consumed so far. -/
theorem runCalls_adds_inv (cs : List BCall) :
    ∀ (rb rb2 : RequestBuilder) (specsT sTemp : List BCall),
    runCalls rb cs = some rb2 → rb2.err = "" → rb.err = "" →
    List.Forall₂ matchesAdd specsT rb.list.Transaction →
    matchTemp sTemp rb.temp →
    List.Forall₂ matchesAdd (specsT ++ (sTemp ++ addCalls cs))
      (rb2.list.Transaction ++ rb2.temp.toList) := by
  induction cs with
  | nil =>
    intro rb rb2 specsT sTemp hrun herr2 herr hT hTemp
    have hr : rb = rb2 := Option.some_inj.mp (by simpa [runCalls] using hrun)
    subst hr
    simpa [addCalls] using
      List.rel_append hT (matchTemp_forall₂ sTemp rb.temp hTemp)
  | cons c cs ih =>
    intro rb rb2 specsT sTemp hrun herr2 herr hT hTemp
    cases hs : step rb c with
    | none => simp [runCalls, hs] at hrun
    | some rb1 =>
      have hrest : runCalls rb1 cs = some rb2 := by
        simpa [runCalls, hs] using hrun
      by_cases herr1 : rb1.err = ""
      · by_cases hAddc : isAdd c = true
        · cases c with
          | addQuery q =>
            have hstep2 : step rb (BCall.addQuery q) =
                some { rb with list := { rb.list with Transaction := rb.list.Transaction ++ rb.temp.toList }, temp := some { Query := q } } := by
              cases ht : rb.temp with
              | some t => simp [step, RequestBuilder.AddQuery, herr, ht]
              | none => simp [step, RequestBuilder.AddQuery, herr, ht]
            have hrb1 : rb1 = { rb with list := { rb.list with Transaction := rb.list.Transaction ++ rb.temp.toList }, temp := some { Query := q } } :=
              Option.some_inj.mp (hs.symm.trans hstep2)
            subst hrb1
            have hT1 :=
              List.rel_append hT (matchTemp_forall₂ sTemp rb.temp hTemp)
            have hres := ih _ rb2 (specsT ++ sTemp) [BCall.addQuery q]
              hrest herr2 herr1 hT1 rfl
            simpa [addCalls, List.filter_cons, isAdd, List.append_assoc]
              using hres
          | addStatement s =>
            have hstep2 : step rb (BCall.addStatement s) =
                some { rb with list := { rb.list with Transaction := rb.list.Transaction ++ rb.temp.toList }, temp := some { Statement := s } } := by
              cases ht : rb.temp with
              | some t => simp [step, RequestBuilder.AddStatement, herr, ht]
              | none => simp [step, RequestBuilder.AddStatement, herr, ht]
            have hrb1 : rb1 = { rb with list := { rb.list with Transaction := rb.list.Transaction ++ rb.temp.toList }, temp := some { Statement := s } } :=
              Option.some_inj.mp (hs.symm.trans hstep2)
            subst hrb1
            have hT1 :=
              List.rel_append hT (matchTemp_forall₂ sTemp rb.temp hTemp)
            have hres := ih _ rb2 (specsT ++ sTemp) [BCall.addStatement s]
              hrest herr2 herr1 hT1 rfl
            simpa [addCalls, List.filter_cons, isAdd, List.append_assoc]
              using hres
          | withNoFail => simp [isAdd] at hAddc
          | withValues v => simp [isAdd] at hAddc
          | withEncoderAndCompression p l f => simp [isAdd] at hAddc
          | withEncoder p f => simp [isAdd] at hAddc
          | withDecoder p f => simp [isAdd] at hAddc
        · have hAddf : isAdd c = false := by simpa using hAddc
          obtain ⟨hlist, t, t2, ht, ht2, hQ, hS⟩ :=
            with_step_shape rb rb1 c hAddf herr herr1 hs
          rw [ht] at hTemp
          obtain ⟨c0, hs0, hm0⟩ := matchTemp_some sTemp t hTemp
          subst hs0
          have hTemp1 : matchTemp [c0] rb1.temp := by
            rw [ht2]
            exact matchesAdd_congr c0 t t2 hQ hS hm0
          have hT1 : List.Forall₂ matchesAdd specsT rb1.list.Transaction := by
            rw [hlist]
            exact hT
          have hres := ih rb1 rb2 specsT [c0] hrest herr2 herr1 hT1 hTemp1
          have hAC : addCalls (c :: cs) = addCalls cs := by
            simp [addCalls, List.filter_cons, hAddf]
          rw [hAC]
          exact hres
      · rw [runCalls_latched rb1 cs herr1] at hrest
        rw [← Option.some_inj.mp hrest] at herr2
        exact absurd herr2 herr1

/-- C8: when a call sequence runs without panic and `Build` succeeds,
the built Request's transaction has exactly one item per add call, in
call order, and the i-th item carries the SQL text of the i-th add
call. -/
theorem build_transaction_matches_adds (cs : List BCall)
    (rb : RequestBuilder) (req : Request)
    (hrun : runCalls NewRequestBuilder cs = some rb)
    (hbuild : rb.Build = .ok req) :
    req.req.Transaction.length = (addCalls cs).length ∧
    List.Forall₂ matchesAdd (addCalls cs) req.req.Transaction := by
  cases ht : rb.temp with
  | none => simp [RequestBuilder.Build, ht] at hbuild
  | some t =>
    by_cases herr : rb.err = ""
    · have hreq : { req := { rb.list with Transaction := rb.list.Transaction ++ [t] } } = req := by
        simpa [RequestBuilder.Build, ht, herr] using hbuild
      have hinv := runCalls_adds_inv cs NewRequestBuilder rb [] [] hrun herr
        rfl List.Forall₂.nil trivial
      rw [ht] at hinv
      simp only [List.nil_append] at hinv
      have hmain : List.Forall₂ matchesAdd (addCalls cs)
          req.req.Transaction := by
        rw [← hreq]
        exact hinv
      exact ⟨(List.Forall₂.length_eq hmain).symm, hmain⟩
    · simp [RequestBuilder.Build, ht, herr] at hbuild

/-- A demo call sequence: query with one binding, then a statement. -/
def demoCalls : List BCall :=
  [BCall.addQuery "SELECT A", BCall.withValues (some vm1),
   BCall.addStatement "INSERT B"]

/-- Builder state after running `demoCalls`. -/
def demoRb : RequestBuilder :=
  { err := "",
    list := { Credentials := none,
              Transaction := [{ Query := "SELECT A", Values := some vm1 }] },
    temp := some { Statement := "INSERT B" } }

/-- The Request built from `demoRb`. -/
def demoReq : Request :=
  { req := { Credentials := none,
             Transaction := [{ Query := "SELECT A", Values := some vm1 },
                             { Statement := "INSERT B" }] } }

/-- C8, witness: the demo sequence yields a 2-item transaction whose
items carry the texts of the two add calls, in order. -/
theorem build_transaction_matches_adds_witness :
    demoReq.req.Transaction.length = (addCalls demoCalls).length ∧
    List.Forall₂ matchesAdd (addCalls demoCalls) demoReq.req.Transaction :=
  build_transaction_matches_adds demoCalls demoRb demoReq rfl rfl

/-! ## C1 -/

/-- A Client built with inline auth. -/
def cliInline : Client :=
  { url := "http://localhost:12321/db", authMode := AUTH_MODE_INLINE,
    user := "myUser", password := "myPwd" }

/-- A Client built with no auth. -/
def cliNone : Client :=
  { url := "http://localhost:12321/db2", authMode := AUTH_MODE_NONE,
    user := "", password := "" }

/-- C1, counterexample: `SendWithContext` in inline mode assigns the
credentials through the stored `*Request` pointer, so after the call the
stored Request's credentials field has changed, and a later send of the
same Request through a no-auth Client still carries those credentials. -/
theorem send_mutates_stored_request :
    ClientBuilder.Build
        ((NewClientBuilder.WithURL "http://localhost:12321/db").WithInlineAuth
          "myUser" "myPwd") = .ok cliInline ∧
    demoReq.req.Credentials = none ∧
    (cliInline.sendAttachCredentials demoReq).req.Credentials =
      some { User := "myUser", Password := "myPwd" } ∧
    (cliNone.sendAttachCredentials
        (cliInline.sendAttachCredentials demoReq)).req.Credentials =
      some { User := "myUser", Password := "myPwd" } :=
  ⟨rfl, rfl, rfl, rfl⟩

/-- C1 (amended): the credential attachment leaves the stored Request's
transaction list unchanged; in inline mode it sets the stored Request's
credentials field to the Client's credentials (persisting after the
call), and in any other mode it leaves the Request untouched. -/
theorem sendAttachCredentials_spec (c : Client) (r : Request) :
    (c.sendAttachCredentials r).req.Transaction = r.req.Transaction ∧
    (c.authMode = AUTH_MODE_INLINE →
      (c.sendAttachCredentials r).req.Credentials =
        some { User := c.user, Password := c.password }) ∧
    (c.authMode ≠ AUTH_MODE_INLINE → c.sendAttachCredentials r = r) := by
  unfold Client.sendAttachCredentials
  by_cases h : c.authMode = AUTH_MODE_INLINE
  · simp [h]
  · simp [h]

/-- C1, witness: the amended statement instantiated on the concrete
clients and Request. -/
theorem sendAttachCredentials_spec_witness :
    (cliInline.sendAttachCredentials demoReq).req.Credentials =
      some { User := "myUser", Password := "myPwd" } ∧
    cliNone.sendAttachCredentials demoReq = demoReq :=
  ⟨(sendAttachCredentials_spec cliInline demoReq).2.1 rfl,
   (sendAttachCredentials_spec cliNone demoReq).2.2 (by decide)⟩

/-! ## C5 -/

/-- C5: on any non-200 status, `SendWithContext` returns no Response,
reports the status, and returns a `WsError` whose `Code` is the HTTP
status; its index/message come from the parsed body when the body parses
as the structured error shape, and are `-1` / the raw body text when it
does not. -/
theorem handleBody_non200 (status : Int) (body : String)
    (pe : Option WsError) (pr : Option response) (h : status ≠ 200) :
    (handleBody status body pe pr).1 = none ∧
    (handleBody status body pe pr).2.1 = status ∧
    (∀ w, pe = some w →
      (handleBody status body pe pr).2.2 =
        some (.ws { RequestIdx := w.RequestIdx, Msg := w.Msg,
                    Code := status })) ∧
    (pe = none →
      (handleBody status body pe pr).2.2 =
        some (.ws { RequestIdx := -1, Msg := body, Code := status })) := by
  unfold handleBody
  rw [if_pos h]
  refine ⟨rfl, rfl, ?_, ?_⟩
  · intro w hw
    rw [hw]
  · intro hw
    rw [hw]

/-- C5, witness: a parseable 500 body and an unparseable 404 body. -/
theorem handleBody_non200_witness :
    (handleBody 500 "boom" (some { RequestIdx := 2, Msg := "remote", Code := 0 }) none).1 = none ∧
    (handleBody 500 "boom" (some { RequestIdx := 2, Msg := "remote", Code := 0 }) none).2.1 = 500 ∧
    (handleBody 500 "boom" (some { RequestIdx := 2, Msg := "remote", Code := 0 }) none).2.2 =
      some (.ws { RequestIdx := 2, Msg := "remote", Code := 500 }) ∧
    (handleBody 404 "nf" none none).2.2 =
      some (.ws { RequestIdx := -1, Msg := "nf", Code := 404 }) :=
  ⟨(handleBody_non200 500 "boom"
      (some { RequestIdx := 2, Msg := "remote", Code := 0 }) none
      (by decide)).1,
   (handleBody_non200 500 "boom"
      (some { RequestIdx := 2, Msg := "remote", Code := 0 }) none
      (by decide)).2.1,
   (handleBody_non200 500 "boom"
      (some { RequestIdx := 2, Msg := "remote", Code := 0 }) none
      (by decide)).2.2.1 { RequestIdx := 2, Msg := "remote", Code := 0 } rfl,
   (handleBody_non200 404 "nf" none none (by decide)).2.2.2 rfl⟩

/-! ## C3 -/

/-- The decoder copies the outcome fields through, so the number of
populated outcome fields of a decoded item equals that of its wire
item. -/
theorem decodeItem_populated (w : responseItem) (r : ResponseItem)
    (h : decodeItem w = .ok r) :
    populatedCount r = wirePopulatedCount w := by
  unfold decodeItem at h
  split at h
  · next heq =>
    rw [← Except.ok.inj h]
    simp [populatedCount, wirePopulatedCount, heq]
  · next rs heq =>
    split at h
    · exact absurd h (by simp)
    · next rs2 heq2 =>
      rw [← Except.ok.inj h]
      simp [populatedCount, wirePopulatedCount, heq]

/-- The item loop decodes position-wise: item i of the output comes from
wire item i. -/
theorem decodeResults_forall₂ :
    ∀ (ws : List responseItem) (rs : List ResponseItem),
    decodeResults ws = .ok rs →
    List.Forall₂ (fun w r => decodeItem w = Except.ok r) ws rs := by
  intro ws
  induction ws with
  | nil =>
    intro rs h
    have hr : [] = rs := by simpa [decodeResults] using h
    rw [← hr]
    exact List.Forall₂.nil
  | cons w ws ih =>
    intro rs h
    simp only [decodeResults] at h
    split at h
    · exact absurd h (by simp)
    · next r heq =>
      split at h
      · exact absurd h (by simp)
      · next rs2 heq2 =>
        have hr : r :: rs2 = rs := by simpa using h
        rw [← hr]
        exact List.Forall₂.cons heq (ih rs2 heq2)

/-- C3 (amended): a 200-status body whose envelope parses and whose
cells all decode yields a Response with one item per wire result, in
order, each decoded from the wire item at the same position; a decoded
item has exactly one populated outcome field if and only if its wire
item does — the decoder preserves but does not enforce the
exclusivity. -/
theorem decode200_preserves (body : String) (pe : Option WsError)
    (res : response) (R : Response)
    (h : (handleBody 200 body pe (some res)).1 = some R) :
    R.Results.length = res.Results.length ∧
    List.Forall₂ (fun w r => decodeItem w = Except.ok r ∧
      populatedCount r = wirePopulatedCount w) res.Results R.Results := by
  have hd : decodeResponse res = .ok R := by
    cases hd0 : decodeResponse res with
    | error e =>
      have hnone : (handleBody 200 body pe (some res)).1 = none := by
        simp [handleBody, hd0]
      rw [hnone] at h
      exact absurd h (by simp)
    | ok r =>
      have hsome : (handleBody 200 body pe (some res)).1 = some r := by
        simp [handleBody, hd0]
      rw [hsome] at h
      rw [Option.some_inj.mp h]
  have hrs : ∃ rs, decodeResults res.Results = .ok rs ∧ R.Results = rs := by
    unfold decodeResponse at hd
    split at hd
    · exact absurd hd (by simp)
    · next rs heq =>
      have : Response.mk rs = R := Except.ok.inj hd
      exact ⟨rs, heq, by rw [← this]⟩
  obtain ⟨rs, hok, hRrs⟩ := hrs
  rw [hRrs]
  have hfa := decodeResults_forall₂ res.Results rs hok
  have hfa2 : List.Forall₂ (fun w r => decodeItem w = Except.ok r ∧
      populatedCount r = wirePopulatedCount w) res.Results rs :=
    List.Forall₂.imp
      (fun w r hwr => ⟨hwr, decodeItem_populated w r hwr⟩) hfa
  exact ⟨(List.Forall₂.length_eq hfa2).symm, hfa2⟩

/-- A wire item with two populated outcome fields (an error message and
a rows-updated count). -/
def cexWireItem : responseItem :=
  { Success := true, RowsUpdated := some 1, RowsUpdatedBatch := none,
    ResultSet := none, Error := "boom" }

/-- A one-item wire envelope containing `cexWireItem`. -/
def cexWire : response := { Results := [cexWireItem] }

/-- The decoded counterpart of `cexWireItem`. -/
def cexDecoded : ResponseItem :=
  { Success := true, RowsUpdated := some 1, RowsUpdatedBatch := none,
    ResultSet := none, Error := "boom" }

/-- C3, counterexample: a 200-status wire body decodes successfully to a
ResponseItem with two populated outcome fields — the decoder does not
enforce the claimed mutual exclusivity. -/
theorem decode200_multi_populated :
    (handleBody 200 "" none (some cexWire)).1 = some { Results := [cexDecoded] } ∧
    populatedCount cexDecoded = 2 :=
  ⟨rfl, rfl⟩

/-- A well-formed two-item wire envelope: a result set and an error. -/
def demoWire : response :=
  { Results :=
      [{ Success := true, RowsUpdated := none, RowsUpdatedBatch := none,
         ResultSet := some [[("A", some (Jval.num 1))]], Error := "" },
       { Success := false, RowsUpdated := none, RowsUpdatedBatch := none,
         ResultSet := none, Error := "bad" }] }

/-- The decoded counterpart of `demoWire`. -/
def demoDecoded : Response :=
  { Results :=
      [{ Success := true, RowsUpdated := none, RowsUpdatedBatch := none,
         ResultSet := some [[("A", Jval.num 1)]], Error := "" },
       { Success := false, RowsUpdated := none, RowsUpdatedBatch := none,
         ResultSet := none, Error := "bad" }] }

/-- C3, witness: the amended statement instantiated on `demoWire`. -/
theorem decode200_preserves_witness :
    demoDecoded.Results.length = demoWire.Results.length ∧
    List.Forall₂ (fun w r => decodeItem w = Except.ok r ∧
      populatedCount r = wirePopulatedCount w) demoWire.Results
      demoDecoded.Results :=
  decode200_preserves "" none demoWire demoDecoded rfl
